import Mathlib

/-!
Verification of the gemini-antiblock-go streaming proxy.

This file gives a shallow embedding, in Lean 4, of the parts of the
repository that the specification's claims are about:

* the dynamic JSON request body (`JSONValue`, an open tagged tree, with
  Go-map semantics modelled as association lists with first-key lookup
  and in-place replacement),
* `ProxyHandler.InjectSystemPrompt` (src/handlers/proxy.go),
* `BuildRetryRequestBody` (src/streaming/retry.go),
* the per-attempt loop and between-attempt logic of `Session.Process`
  (src/streaming/retry.go), embedded as a pure state machine over
  classified SSE lines.

The chunk-classifier helpers (`IsDataLine`, `ParseLineContent`,
`ExtractFinishReason`, `IsBlockedLine`) are pure functions of a single
raw line; the engine only consumes their outputs, so a line is embedded
as the record of those outputs (`Line`).  `RemoveDoneTokenFromLine`
only affects the raw bytes forwarded, never the classification or the
session state, so a forwarded write is recorded as the classified line
it forwards.  Flushes follow every write unconditionally in the source
and are not modelled as separate events.
-/

/-- Dynamic JSON tree, mirroring Go's `interface{}` decoding of a JSON
document: null / bool / number / string / array / object.  Objects are
association lists standing for Go maps. -/
inductive JSONValue where
  | null
  | bool (b : Bool)
  | num (n : Int)
  | str (s : String)
  | arr (items : List JSONValue)
  | obj (fields : List (String × JSONValue))
  deriving Repr

instance : Inhabited JSONValue := ⟨.null⟩

/-- Go map read `m[k]`: first binding for the key, if any. -/
def jLookup : List (String × JSONValue) → String → Option JSONValue
  | [], _ => none
  | (k, v) :: rest, key => if k = key then some v else jLookup rest key

/-- Go map write `m[k] = v`: replace the binding if the key is present,
otherwise add it. -/
def jSet : List (String × JSONValue) → String → JSONValue → List (String × JSONValue)
  | [], key, v => [(key, v)]
  | (k, w) :: rest, key, v =>
      if k = key then (key, v) :: rest else (k, w) :: jSet rest key v

theorem jLookup_jSet_self (m : List (String × JSONValue)) (k : String) (v : JSONValue) :
    jLookup (jSet m k v) k = some v := by
  induction m with
  | nil => simp [jSet, jLookup]
  | cons hd tl ih =>
      obtain ⟨k', w⟩ := hd
      by_cases h : k' = k
      · simp [jSet, h, jLookup]
      · simp [jSet, h, jLookup, ih]

theorem jLookup_jSet_ne (m : List (String × JSONValue)) (k k' : String) (v : JSONValue)
    (h : k' ≠ k) : jLookup (jSet m k v) k' = jLookup m k' := by
  have hne : ¬k = k' := fun hkk => h hkk.symm
  induction m with
  | nil => simp [jSet, jLookup, hne]
  | cons hd tl ih =>
      obtain ⟨k₀, w⟩ := hd
      by_cases h0 : k₀ = k
      · subst h0
        simp [jSet, jLookup, hne]
      · by_cases h1 : k₀ = k'
        · simp [jSet, h0, jLookup, h1, h]
        · simp [jSet, h0, jLookup, h1, ih]

/-! ## Prompt injection (src/handlers/proxy.go, `InjectSystemPrompt`) -/

/-- The mandated sentinel instruction text (proxy.go line 76). -/
def sentinelInstruction : String :=
  "IMPORTANT: At the very end of your entire response, you must write the token [done] to signal completion. This is a mandatory technical requirement."

/-- The part appended by `InjectSystemPrompt` (proxy.go lines 75-77). -/
def newSystemPromptPart : JSONValue :=
  .obj [("text", .str sentinelInstruction)]

/-- `ProxyHandler.InjectSystemPrompt` (proxy.go lines 74-107).  The Go
function mutates `body` in place; here the updated body is returned.
Note that, despite the comment at proxy.go lines 71-73, the function
never touches a legacy `system_instruction` key. -/
def injectSystemPrompt (body : List (String × JSONValue)) : List (String × JSONValue) :=
  match jLookup body "systemInstruction" with
  | none =>
      jSet body "systemInstruction" (.obj [("parts", .arr [newSystemPromptPart])])
  | some .null =>
      jSet body "systemInstruction" (.obj [("parts", .arr [newSystemPromptPart])])
  | some (.obj fields) =>
      match jLookup fields "parts" with
      | some (.arr parts) =>
          jSet body "systemInstruction"
            (.obj (jSet fields "parts" (.arr (parts ++ [newSystemPromptPart]))))
      | _ =>
          jSet body "systemInstruction"
            (.obj (jSet fields "parts" (.arr [newSystemPromptPart])))
  | some _ =>
      jSet body "systemInstruction" (.obj [("parts", .arr [newSystemPromptPart])])

/-- Whether a part is an object whose `text` field is exactly the
sentinel instruction string. -/
def isSentinelPart : JSONValue → Bool
  | .obj fields =>
      match jLookup fields "text" with
      | some (.str s) => s == sentinelInstruction
      | _ => false
  | _ => false

/-- How many times the sentinel-instruction string occurs among
`systemInstruction.parts` of a body (0 when the path is absent or of
the wrong shape). -/
def sentinelCount (body : List (String × JSONValue)) : Nat :=
  match jLookup body "systemInstruction" with
  | some (.obj fields) =>
      match jLookup fields "parts" with
      | some (.arr parts) => parts.countP (fun p => isSentinelPart p)
      | _ => 0
  | _ => 0

/-! ## Retry body construction (src/streaming/retry.go, `BuildRetryRequestBody`) -/

/-- The fixed continuation directive (retry.go line 62). -/
def continuationDirective : String :=
  "Continue exactly where you left off without any preamble or repetition."

/-- First message of the continuation history (retry.go lines 53-58). -/
def modelHistoryEntry (accumulatedText : String) : JSONValue :=
  .obj [("role", .str "model"),
        ("parts", .arr [.obj [("text", .str accumulatedText)]])]

/-- Second message of the continuation history (retry.go lines 59-64). -/
def userHistoryEntry : JSONValue :=
  .obj [("role", .str "user"),
        ("parts", .arr [.obj [("text", .str continuationDirective)]])]

/-- The `contents` array of a body, read the way `BuildRetryRequestBody`
reads it (retry.go lines 35-38): a non-array or missing value counts as
the empty array. -/
def contentsOf (body : List (String × JSONValue)) : List JSONValue :=
  match jLookup body "contents" with
  | some (.arr items) => items
  | _ => []

/-- Whether a `contents` entry is a map whose `role` field is the string
`"user"` (retry.go lines 43-46). -/
def isUserEntry : JSONValue → Bool
  | .obj fields =>
      match jLookup fields "role" with
      | some (.str r) => r == "user"
      | _ => false
  | _ => false

/-- Index of the last entry with role `"user"` (retry.go lines 41-49:
the Go loop scans from the end and stops at the first match). -/
def lastUserIndex : List JSONValue → Option Nat
  | [] => none
  | c :: rest =>
      match lastUserIndex rest with
      | some i => some (i + 1)
      | none => if isUserEntry c then some 0 else none

/-- `BuildRetryRequestBody` (retry.go lines 21-83): shallow-copies the
original body, rebuilds `contents` with the two-message continuation
history inserted after the last user message (or appended when there is
none), and stores the new array under `contents`. -/
def buildRetryRequestBody (originalBody : List (String × JSONValue))
    (accumulatedText : String) : List (String × JSONValue) :=
  let contents := contentsOf originalBody
  let history := [modelHistoryEntry accumulatedText, userHistoryEntry]
  let newContents :=
    match lastUserIndex contents with
    | some i => contents.take (i + 1) ++ history ++ contents.drop (i + 1)
    | none => contents ++ history
  jSet originalBody "contents" (.arr newContents)

/-! ## The retry engine (src/streaming/retry.go, `Session.Process`)

A classified SSE line.  `Session.Process` inspects a raw line only
through the pure classifier helpers of the `streaming` package
(`IsDataLine`, `ParseLineContent`, `ExtractFinishReason`,
`IsBlockedLine`); a line is therefore embedded as the record of those
helpers' outputs for it. -/
structure Line where
  isData : Bool
  text : String
  isThought : Bool
  finishReason : String
  isBlocked : Bool
  deriving Repr, DecidableEq, Inhabited

/-- `textChunk` as computed in retry.go lines 137-144: the parsed text
when the line is a data line, otherwise the zero value `""`. -/
def effText (l : Line) : String :=
  if l.isData then l.text else ""

/-- `isThought` as computed in retry.go lines 137-144: the parsed flag
when the line is a data line, otherwise the zero value `false`. -/
def effIsThought (l : Line) : Bool :=
  l.isData && l.isThought

/-- The mutable per-session fields of `Session` touched by the
per-attempt loop (retry.go lines 94-99).  Observability-only counters
(`totalLinesProcessed`, timestamps) are omitted. -/
structure SessionState where
  accumulatedText : String
  consecutiveRetryCount : Nat
  isOutputtingFormalText : Bool
  swallowModeActive : Bool
  deriving Repr, DecidableEq

/-- Fresh session state (`NewSession`, retry.go lines 103-114). -/
def initialSessionState : SessionState :=
  { accumulatedText := ""
    consecutiveRetryCount := 0
    isOutputtingFormalText := false
    swallowModeActive := false }

/-- The configuration fields `Session.Process` consults. -/
structure Config where
  maxConsecutiveRetries : Nat
  retryDelayMs : Nat
  swallowThoughtsAfterRetry : Bool
  deriving Repr

/-- The exact bytes of the synthesized final data line (retry.go
line 209).  Note the space after each colon. -/
def doneLineString : String :=
  "data: \x7b\"candidates\": [\x7b\"content\": \x7b\"parts\": [\x7b\"text\": \"[done]\"\x7d]\x7d\x7d]\x7d"

/-- One downstream write performed by the engine.  A `forwarded` event
records the classified line whose processed form
(`RemoveDoneTokenFromLine(raw, isEnd)` followed by a blank line) was
written; `doneLine` records the synthesized final data line (its raw
bytes); `errorFrame` records the JSON payload of the SSE
`event: error` frame (retry.go lines 253-267), the value Go's
`json.Marshal` serializes.  Every write is immediately followed by a
flush in the source. -/
inductive OutputEvent where
  | forwarded (line : Line)
  | doneLine (raw : String)
  | errorFrame (payload : JSONValue)
  deriving Repr

/-- Whitespace as trimmed by Go's `strings.TrimSpace` (restricted to
the ASCII whitespace characters; the Unicode-only cases of
`unicode.IsSpace` do not affect any claim). -/
def isSpaceChar (c : Char) : Bool :=
  c == ' ' || c == '\t' || c == '\n' || c == '\r' || c == '\x0b' || c == '\x0c'

/-- Go `strings.TrimSpace`: drop leading and trailing whitespace. -/
def trimSpace (s : String) : String :=
  ⟨((s.data.dropWhile isSpaceChar).reverse.dropWhile isSpaceChar).reverse⟩

/-- Interruption classification for a line handled outside swallow mode
(retry.go lines 162-185): the `else if` chain applies at most one rule,
in source order. -/
def classifyInterruption (accumulatedText : String) (l : Line) : Option String :=
  if (l.finishReason != "") && effIsThought l then
    some "FINISH_DURING_THOUGHT"
  else if l.isBlocked then
    some "BLOCK"
  else if l.finishReason == "STOP" then
    if trimSpace (accumulatedText ++ effText l) == "" then
      some "FINISH_EMPTY_RESPONSE"
    else
      none
  else if (l.finishReason != "") && (l.finishReason != "MAX_TOKENS") && (l.finishReason != "STOP") then
    some "FINISH_ABNORMAL"
  else
    none

/-- State update after a line is forwarded (retry.go lines 202-206):
non-empty non-thought text marks formal output and is appended to
`accumulatedText`. -/
def afterForward (st : SessionState) (l : Line) : SessionState :=
  if (effText l != "") && !effIsThought l then
    { st with isOutputtingFormalText := true
              accumulatedText := st.accumulatedText ++ effText l }
  else
    st

/-- How one attempt ended: a clean exit (retry.go lines 208-219) or an
interruption with the recorded reason, `"DROP"` standing for a stream
that ended without a finish reason (retry.go lines 222-225). -/
inductive AttemptOutcome where
  | cleanExit
  | interrupted (reason : String)
  deriving Repr, DecidableEq

/-- The per-attempt loop of `Session.Process` (retry.go lines 133-225)
over the classified lines one upstream body yields, returning the
downstream writes, the updated session state, and how the attempt
ended.  `strings.TrimSpace` is modelled by `trimSpace` (they only
differ on exotic Unicode whitespace). -/
def processAttempt (st : SessionState) : List Line → List OutputEvent × SessionState × AttemptOutcome
  | [] => ([], st, .interrupted "DROP")
  | l :: rest =>
    if st.swallowModeActive && effIsThought l then
      -- retry.go lines 146-155: swallow the thought chunk, except that a
      -- non-empty finish reason on it interrupts the attempt.
      if l.finishReason != "" then
        ([], st, .interrupted "FINISH_DURING_THOUGHT")
      else
        processAttempt st rest
    else
      -- retry.go lines 156-159: any non-thought line clears swallow mode.
      let st1 := if st.swallowModeActive then { st with swallowModeActive := false } else st
      match classifyInterruption st1.accumulatedText l with
      | some reason => ([], st1, .interrupted reason)
      | none =>
        let st2 := afterForward st1 l
        if l.finishReason == "STOP" || l.finishReason == "MAX_TOKENS" then
          ([.forwarded l, .doneLine doneLineString], st2, .cleanExit)
        else
          let res := processAttempt st2 rest
          (.forwarded l :: res.1, res.2)

/-- Post-interruption swallow-mode arming (retry.go lines 247-250). -/
def postInterruptState (cfg : Config) (st : SessionState) : SessionState :=
  if cfg.swallowThoughtsAfterRetry && st.isOutputtingFormalText then
    { st with swallowModeActive := true }
  else
    st

/-- The retry-exhaustion error frame's payload (retry.go lines
253-265): code 504, status DEADLINE_EXCEEDED, the formatted message,
and a details entry carrying the byte length of the accumulated text
(Go `len` on a string counts bytes). -/
def mkRetryLimitFrame (maxRetries : Nat) (reason : String) (accumulatedText : String) : OutputEvent :=
  .errorFrame (.obj [("error", .obj [
    ("code", .num 504),
    ("status", .str "DEADLINE_EXCEEDED"),
    ("message", .str ("Retry limit (" ++ toString maxRetries ++
      ") exceeded after stream interruption. Last reason: " ++ reason ++ ".")),
    ("details", .arr [.obj [
      ("@type", .str "proxy.debug"),
      ("accumulated_text_chars", .num accumulatedText.utf8ByteSize)]])])])

/-- Result of a retry fetch (retry.go lines 300-315): a transport error,
or an HTTP response with a status code and (when 200) a body. -/
inductive FetchResult where
  | transportErr
  | httpStatus (code : Nat) (body : List Line)
  deriving Repr

/-- Whether a retry fetch replaces the current reader (retry.go lines
300-318): only a 200 response does; a transport error or any other
status leaves the current reader in place (after a sleep).  The
`nonRetryableStatuses` set declared at retry.go lines 16-18 is never
consulted. -/
def fetchNewReader : FetchResult → Option (List Line)
  | .transportErr => none
  | .httpStatus code body => if code == 200 then some body else none

/-- Environment of one retry iteration: the fetch result, and the lines
the old (already partly consumed) reader would still yield if the fetch
does not replace it. -/
structure RetryEnv where
  fetch : FetchResult
  residual : List Line

/-- How a (finite prefix of a) session ended: success (clean exit),
failure (retry limit exhausted), or still pending when the supplied
environment ran out. -/
inductive SessionResult where
  | success
  | failure
  | pending
  deriving Repr, DecidableEq

/-- Result of one outer-loop iteration (retry.go lines 121-275) up to
the point where a retry fetch would be issued: either the session is
over, or a retry is needed (with the retry counter already
incremented, retry.go line 274). -/
inductive IterResult where
  | finished (evs : List OutputEvent) (st : SessionState) (r : SessionResult)
  | needRetry (evs : List OutputEvent) (st : SessionState)
  deriving Repr

/-- One outer-loop iteration of `Session.Process` (retry.go lines
121-275): run the attempt; on clean exit succeed; otherwise arm swallow
mode, fail with the error frame when the retry limit is reached, or
consume a retry. -/
def sessionIter (cfg : Config) (st : SessionState) (lines : List Line) : IterResult :=
  let res := processAttempt st lines
  let evs := res.1
  let st1 := res.2.1
  match res.2.2 with
  | .cleanExit => .finished evs st1 .success
  | .interrupted reason =>
    let st2 := postInterruptState cfg st1
    if cfg.maxConsecutiveRetries ≤ st2.consecutiveRetryCount then
      .finished (evs ++ [mkRetryLimitFrame cfg.maxConsecutiveRetries reason st2.accumulatedText])
        st2 .failure
    else
      .needRetry evs { st2 with consecutiveRetryCount := st2.consecutiveRetryCount + 1 }

/-- The outer loop of `Session.Process` (retry.go lines 121-319), driven
by an environment of retry-fetch results.  Returns all downstream
writes, the total milliseconds slept in `time.Sleep(RetryDelayMs)`
calls, the final session state, and the session result. -/
def sessionRun (cfg : Config) (st : SessionState) (lines : List Line) :
    List RetryEnv → List OutputEvent × Nat × SessionState × SessionResult
  | [] =>
    match sessionIter cfg st lines with
    | .finished evs st' r => (evs, 0, st', r)
    | .needRetry evs st3 => (evs, 0, st3, .pending)
  | e :: rest =>
    match sessionIter cfg st lines with
    | .finished evs st' r => (evs, 0, st', r)
    | .needRetry evs st3 =>
      match fetchNewReader e.fetch with
      | some newLines =>
        let r := sessionRun cfg st3 newLines rest
        (evs ++ r.1, r.2.1, r.2.2)
      | none =>
        let r := sessionRun cfg st3 e.residual rest
        (evs ++ r.1, r.2.1 + cfg.retryDelayMs, r.2.2)

/-! ## Theorems for the prompt-injection claims -/

theorem isSentinelPart_newSystemPromptPart : isSentinelPart newSystemPromptPart = true := by
  simp [isSentinelPart, newSystemPromptPart, jLookup]

theorem sentinelCount_parts (body : List (String × JSONValue)) (fields : List (String × JSONValue))
    (parts : List JSONValue)
    (h : jLookup body "systemInstruction" = some (.obj fields))
    (hp : jLookup fields "parts" = some (.arr parts)) :
    sentinelCount body = parts.countP (fun p => isSentinelPart p) := by
  simp [sentinelCount, h, hp]

/-- C4: `InjectSystemPrompt` appends exactly one sentinel part to
`systemInstruction.parts`, handling every prior shape of the field:
absent, null or non-mapping values are replaced by a fresh
`parts: [newPart]` object; a mapping without a `parts` sequence gets
`parts: [newPart]`; a mapping with a `parts` sequence gets the new part
appended; and in every case the sentinel-instruction string occurs in
`systemInstruction.parts` exactly once more than before. -/
theorem c4_inject_appends_sentinel (body : List (String × JSONValue)) :
    ((jLookup body "systemInstruction" = none ∨
      jLookup body "systemInstruction" = some .null ∨
      (∃ v, jLookup body "systemInstruction" = some v ∧ ∀ fields, v ≠ .obj fields)) →
      jLookup (injectSystemPrompt body) "systemInstruction" =
        some (.obj [("parts", .arr [newSystemPromptPart])]))
    ∧ (∀ fields, jLookup body "systemInstruction" = some (.obj fields) →
        (∀ parts, jLookup fields "parts" ≠ some (.arr parts)) →
        jLookup (injectSystemPrompt body) "systemInstruction" =
          some (.obj (jSet fields "parts" (.arr [newSystemPromptPart]))))
    ∧ (∀ fields parts, jLookup body "systemInstruction" = some (.obj fields) →
        jLookup fields "parts" = some (.arr parts) →
        jLookup (injectSystemPrompt body) "systemInstruction" =
          some (.obj (jSet fields "parts" (.arr (parts ++ [newSystemPromptPart])))))
    ∧ sentinelCount (injectSystemPrompt body) = sentinelCount body + 1 := by
  refine ⟨?_, ?_, ?_, ?_⟩
  · intro h
    rcases h with h | h | ⟨v, hv, hno⟩
    · simp [injectSystemPrompt, h, jLookup_jSet_self]
    · simp [injectSystemPrompt, h, jLookup_jSet_self]
    · cases v with
      | obj fields => exact absurd rfl (hno fields)
      | null => simp [injectSystemPrompt, hv, jLookup_jSet_self]
      | bool b => simp [injectSystemPrompt, hv, jLookup_jSet_self]
      | num n => simp [injectSystemPrompt, hv, jLookup_jSet_self]
      | str s => simp [injectSystemPrompt, hv, jLookup_jSet_self]
      | arr items => simp [injectSystemPrompt, hv, jLookup_jSet_self]
  · intro fields h hnp
    cases hp : jLookup fields "parts" with
    | none => simp [injectSystemPrompt, h, hp, jLookup_jSet_self]
    | some v =>
      cases v with
      | arr parts => exact absurd hp (hnp parts)
      | null => simp [injectSystemPrompt, h, hp, jLookup_jSet_self]
      | bool b => simp [injectSystemPrompt, h, hp, jLookup_jSet_self]
      | num n => simp [injectSystemPrompt, h, hp, jLookup_jSet_self]
      | str s => simp [injectSystemPrompt, h, hp, jLookup_jSet_self]
      | obj f => simp [injectSystemPrompt, h, hp, jLookup_jSet_self]
  · intro fields parts h hp
    simp [injectSystemPrompt, h, hp, jLookup_jSet_self]
  · cases h : jLookup body "systemInstruction" with
    | none =>
      simp [injectSystemPrompt, h, sentinelCount, jLookup_jSet_self, jLookup,
        isSentinelPart_newSystemPromptPart]
    | some v =>
      cases v with
      | null =>
        simp [injectSystemPrompt, h, sentinelCount, jLookup_jSet_self, jLookup,
          isSentinelPart_newSystemPromptPart]
      | bool b =>
        simp [injectSystemPrompt, h, sentinelCount, jLookup_jSet_self, jLookup,
          isSentinelPart_newSystemPromptPart]
      | num n =>
        simp [injectSystemPrompt, h, sentinelCount, jLookup_jSet_self, jLookup,
          isSentinelPart_newSystemPromptPart]
      | str s =>
        simp [injectSystemPrompt, h, sentinelCount, jLookup_jSet_self, jLookup,
          isSentinelPart_newSystemPromptPart]
      | arr items =>
        simp [injectSystemPrompt, h, sentinelCount, jLookup_jSet_self, jLookup,
          isSentinelPart_newSystemPromptPart]
      | obj fields =>
        cases hp : jLookup fields "parts" with
        | none =>
          simp [injectSystemPrompt, h, hp, sentinelCount, jLookup_jSet_self, jLookup,
            isSentinelPart_newSystemPromptPart]
        | some w =>
          cases w with
          | arr parts =>
            simp [injectSystemPrompt, h, hp, sentinelCount, jLookup_jSet_self,
              List.countP_append, isSentinelPart_newSystemPromptPart]
          | null =>
            simp [injectSystemPrompt, h, hp, sentinelCount, jLookup_jSet_self, jLookup,
              isSentinelPart_newSystemPromptPart]
          | bool b =>
            simp [injectSystemPrompt, h, hp, sentinelCount, jLookup_jSet_self, jLookup,
              isSentinelPart_newSystemPromptPart]
          | num n =>
            simp [injectSystemPrompt, h, hp, sentinelCount, jLookup_jSet_self, jLookup,
              isSentinelPart_newSystemPromptPart]
          | str s =>
            simp [injectSystemPrompt, h, hp, sentinelCount, jLookup_jSet_self, jLookup,
              isSentinelPart_newSystemPromptPart]
          | obj f =>
            simp [injectSystemPrompt, h, hp, sentinelCount, jLookup_jSet_self, jLookup,
              isSentinelPart_newSystemPromptPart]

/-- Witness for C4 at a concrete body with no `systemInstruction`. -/
theorem c4_inject_appends_sentinel_witness :
    jLookup (injectSystemPrompt [("contents", .arr [])]) "systemInstruction" =
      some (.obj [("parts", .arr [newSystemPromptPart])])
    ∧ sentinelCount (injectSystemPrompt [("contents", .arr [])]) =
        sentinelCount [("contents", .arr [])] + 1 :=
  ⟨(c4_inject_appends_sentinel [("contents", .arr [])]).1 (Or.inl rfl),
   (c4_inject_appends_sentinel [("contents", .arr [])]).2.2.2⟩

/-- A request body that supplies only the legacy snake-case
`system_instruction` field. -/
def snakeCaseOnlyBody : List (String × JSONValue) :=
  [("system_instruction", .obj [("parts", .arr [.obj [("text", .str "Be terse.")]])])]

/-- C5 observed behavior: contrary to the comment at proxy.go lines
71-73 and to the specification, `InjectSystemPrompt` performs no merge
of `system_instruction` into `systemInstruction`: for a body supplying
only the legacy field, the canonical field ends up holding only the
injected sentinel part, the original system text stays under the
untouched legacy key, and the sentinel count of the legacy field's
parts is unchanged. -/
theorem c5_snake_case_not_merged :
    injectSystemPrompt snakeCaseOnlyBody =
      [("system_instruction", .obj [("parts", .arr [.obj [("text", .str "Be terse.")]])]),
       ("systemInstruction", .obj [("parts", .arr [newSystemPromptPart])])]
    ∧ jLookup (injectSystemPrompt snakeCaseOnlyBody) "systemInstruction" =
        some (.obj [("parts", .arr [newSystemPromptPart])])
    ∧ jLookup (injectSystemPrompt snakeCaseOnlyBody) "system_instruction" =
        some (.obj [("parts", .arr [.obj [("text", .str "Be terse.")]])]) :=
  ⟨rfl, rfl, rfl⟩

/-! ## Theorems for retry-body construction -/

theorem lastUserIndex_none_spec (cs : List JSONValue)
    (h : lastUserIndex cs = none) :
    ∀ j, j < cs.length → isUserEntry (cs.getD j .null) = false := by
  induction cs with
  | nil => intro j hj; simp at hj
  | cons c rest ih =>
    simp only [lastUserIndex] at h
    cases hr : lastUserIndex rest with
    | some i => rw [hr] at h; cases h
    | none =>
      rw [hr] at h
      by_cases hc : isUserEntry c = true
      · simp [hc] at h
      · intro j hj
        cases j with
        | zero => simpa using Bool.eq_false_iff.mpr hc
        | succ j' =>
          simp only [List.getD_cons_succ]
          exact ih hr j' (by simpa using hj)

theorem lastUserIndex_some_spec (cs : List JSONValue) (i : Nat)
    (h : lastUserIndex cs = some i) :
    i < cs.length ∧ isUserEntry (cs.getD i .null) = true ∧
      ∀ j, i < j → j < cs.length → isUserEntry (cs.getD j .null) = false := by
  induction cs generalizing i with
  | nil => simp [lastUserIndex] at h
  | cons c rest ih =>
    simp only [lastUserIndex] at h
    cases hr : lastUserIndex rest with
    | some i' =>
      rw [hr] at h
      cases h
      obtain ⟨hlt, hu, hmax⟩ := ih i' hr
      refine ⟨by simpa using Nat.succ_lt_succ hlt, by simpa using hu, ?_⟩
      intro j hij hj
      cases j with
      | zero => omega
      | succ j' =>
        simp only [List.getD_cons_succ]
        exact hmax j' (by omega) (by simpa using hj)
    | none =>
      rw [hr] at h
      by_cases hc : isUserEntry c = true
      · simp only [hc, if_true, Option.some_inj] at h
        subst h
        refine ⟨by simp, by simpa using hc, ?_⟩
        intro j hij hj
        cases j with
        | zero => omega
        | succ j' =>
          simp only [List.getD_cons_succ]
          exact lastUserIndex_none_spec rest hr j' (by simpa using hj)
      · simp [hc] at h

/-- C3: for every original body whose `contents` is the array `items`
and every accumulated text (including `""`), the retry body's
`contents` is items `[0..i]`, then exactly the two-message block
`(role model, parts [text accumulatedText])`,
`(role user, parts [text continuationDirective])`, then items
`[i+1..]`, where `i` is the index of the last entry with role `"user"`
(no later entry has role `"user"`); when no user entry exists, the
block is appended at the end. -/
theorem c3_retry_body_contents (orig : List (String × JSONValue)) (acc : String)
    (items : List JSONValue) (h : jLookup orig "contents" = some (.arr items)) :
    (∀ i, lastUserIndex items = some i →
       i < items.length ∧ isUserEntry (items.getD i .null) = true ∧
       (∀ j, i < j → j < items.length → isUserEntry (items.getD j .null) = false) ∧
       jLookup (buildRetryRequestBody orig acc) "contents" =
         some (.arr (items.take (i + 1) ++
           [modelHistoryEntry acc, userHistoryEntry] ++ items.drop (i + 1))))
    ∧ (lastUserIndex items = none →
       (∀ j, j < items.length → isUserEntry (items.getD j .null) = false) ∧
       jLookup (buildRetryRequestBody orig acc) "contents" =
         some (.arr (items ++ [modelHistoryEntry acc, userHistoryEntry]))) := by
  have hco : contentsOf orig = items := by simp [contentsOf, h]
  constructor
  · intro i hi
    obtain ⟨h1, h2, h3⟩ := lastUserIndex_some_spec items i hi
    refine ⟨h1, h2, h3, ?_⟩
    simp [buildRetryRequestBody, hco, hi, jLookup_jSet_self]
  · intro hn
    refine ⟨lastUserIndex_none_spec items hn, ?_⟩
    simp [buildRetryRequestBody, hco, hn, jLookup_jSet_self]

/-- Witness for C3: a concrete two-turn conversation with empty
accumulated text. -/
theorem c3_retry_body_contents_witness :
    lastUserIndex [.obj [("role", .str "user")], .obj [("role", .str "model")]] = some 0
    ∧ jLookup (buildRetryRequestBody
        [("contents", .arr [.obj [("role", .str "user")], .obj [("role", .str "model")]])] "")
        "contents" =
      some (.arr [.obj [("role", .str "user")],
        modelHistoryEntry "", userHistoryEntry, .obj [("role", .str "model")]]) := by
  refine ⟨rfl, ?_⟩
  have := (c3_retry_body_contents
    [("contents", .arr [.obj [("role", .str "user")], .obj [("role", .str "model")]])] ""
    [.obj [("role", .str "user")], .obj [("role", .str "model")]] rfl).1 0 rfl
  simpa using this.2.2.2

/-! ## Frame condition of `BuildRetryRequestBody` (C10)

The only operation in `BuildRetryRequestBody` that could touch memory
reachable from `originalBody` is `append(contents, history...)`
(retry.go line 76) in the no-user-turn branch: when the `contents`
slice has spare capacity Go writes the appended elements into the
shared backing array at the indices from `len(contents)` on.
`overwriteFrom` models that in-place write; the original slice header
keeps its length, so it continues to denote the first `len` elements
of the backing array. -/
def overwriteFrom (backing : List JSONValue) (len : Nat) (ys : List JSONValue) :
    List JSONValue :=
  backing.take len ++ ys ++ backing.drop (len + ys.length)

/-- C10: `BuildRetryRequestBody` never mutates its `originalBody`
argument.  (a) The in-place `append` write leaves the first `len`
entries of the backing array — everything the original `contents`
slice denotes — unchanged.  (b) The retry body is a fresh map: every
key other than `contents` maps to the original's value.  (c) The new
`contents` value contains the original entries unchanged, split around
the inserted two-message block, so each retry within a session is
built from the same original conversation. -/
theorem c10_no_mutation_of_original :
    (∀ (backing : List JSONValue) (len : Nat) (ys : List JSONValue),
       len ≤ backing.length →
       (overwriteFrom backing len ys).take len = backing.take len)
    ∧ (∀ (orig : List (String × JSONValue)) (acc : String) (k : String),
       k ≠ "contents" →
       jLookup (buildRetryRequestBody orig acc) k = jLookup orig k)
    ∧ (∀ (orig : List (String × JSONValue)) (acc : String),
       ∃ pre post,
         contentsOf (buildRetryRequestBody orig acc) =
           pre ++ [modelHistoryEntry acc, userHistoryEntry] ++ post
         ∧ pre ++ post = contentsOf orig) := by
  refine ⟨?_, ?_, ?_⟩
  · intro backing len ys hlen
    have hl : (backing.take len).length = len := by
      simp [List.length_take, Nat.min_eq_left hlen]
    calc (overwriteFrom backing len ys).take len
        = ((backing.take len) ++ (ys ++ backing.drop (len + ys.length))).take len := by
          simp [overwriteFrom]
      _ = backing.take len := List.take_left' hl
  · intro orig acc k hk
    exact jLookup_jSet_ne orig "contents" k _ hk
  · intro orig acc
    cases hi : lastUserIndex (contentsOf orig) with
    | some i =>
      refine ⟨(contentsOf orig).take (i + 1), (contentsOf orig).drop (i + 1), ?_, ?_⟩
      · have hres : jLookup (buildRetryRequestBody orig acc) "contents" =
            some (.arr ((contentsOf orig).take (i + 1) ++
              [modelHistoryEntry acc, userHistoryEntry] ++ (contentsOf orig).drop (i + 1))) := by
          simp [buildRetryRequestBody, hi, jLookup_jSet_self]
        simp [contentsOf, hres]
      · exact List.take_append_drop (i + 1) (contentsOf orig)
    | none =>
      refine ⟨contentsOf orig, [], ?_, by simp⟩
      have hres : jLookup (buildRetryRequestBody orig acc) "contents" =
          some (.arr (contentsOf orig ++ [modelHistoryEntry acc, userHistoryEntry])) := by
        simp [buildRetryRequestBody, hi, jLookup_jSet_self]
      simp [contentsOf, hres]

/-- Witness for C10 at concrete inputs: an in-place append into spare
capacity leaves the visible prefix unchanged, and a non-`contents` key
of a concrete body is untouched by retry-body construction. -/
theorem c10_no_mutation_of_original_witness :
    (overwriteFrom [.str "a", .null, .null] 1 [.str "x", .str "y"]).take 1 =
      ([.str "a", .null, .null] : List JSONValue).take 1
    ∧ jLookup (buildRetryRequestBody [("generationConfig", .bool true)] "t")
        "generationConfig" = jLookup [("generationConfig", .bool true)] "generationConfig" :=
  ⟨c10_no_mutation_of_original.1 [.str "a", .null, .null] 1 [.str "x", .str "y"]
     (by decide),
   c10_no_mutation_of_original.2.1 [("generationConfig", .bool true)] "t"
     "generationConfig" (by decide)⟩

/-! ## Theorems for the per-attempt loop -/

/-- C1: outside swallow mode, interruption classification applies at
most one rule — the first that matches, in the order: non-empty finish
reason on a thought chunk (FINISH_DURING_THOUGHT), blocked line
(BLOCK), finish reason STOP with trimmed
`accumulatedText ++ textChunk` empty (FINISH_EMPTY_RESPONSE), finish
reason outside {"", "STOP", "MAX_TOKENS"} (FINISH_ABNORMAL) — and no
rule otherwise; whenever a rule fires, the per-attempt loop breaks
with that reason without writing the line downstream. -/
theorem c1_classification_priority (acc : String) (l : Line) (st : SessionState)
    (rest : List Line) :
    (((l.finishReason != "") && effIsThought l) = true →
       classifyInterruption acc l = some "FINISH_DURING_THOUGHT")
    ∧ (((l.finishReason != "") && effIsThought l) = false → l.isBlocked = true →
       classifyInterruption acc l = some "BLOCK")
    ∧ (((l.finishReason != "") && effIsThought l) = false → l.isBlocked = false →
       l.finishReason = "STOP" → trimSpace (acc ++ effText l) = "" →
       classifyInterruption acc l = some "FINISH_EMPTY_RESPONSE")
    ∧ (((l.finishReason != "") && effIsThought l) = false → l.isBlocked = false →
       l.finishReason ≠ "" → l.finishReason ≠ "STOP" → l.finishReason ≠ "MAX_TOKENS" →
       classifyInterruption acc l = some "FINISH_ABNORMAL")
    ∧ (((l.finishReason != "") && effIsThought l) = false → l.isBlocked = false →
       (l.finishReason = "" ∨ l.finishReason = "MAX_TOKENS" ∨
        (l.finishReason = "STOP" ∧ trimSpace (acc ++ effText l) ≠ "")) →
       classifyInterruption acc l = none)
    ∧ (st.swallowModeActive = false →
       ∀ r, classifyInterruption st.accumulatedText l = some r →
         processAttempt st (l :: rest) = ([], st, .interrupted r)) := by
  refine ⟨?_, ?_, ?_, ?_, ?_, ?_⟩
  · intro h
    simp [classifyInterruption, h]
  · intro h hb
    simp [classifyInterruption, h, hb]
  · intro h hb hs ht
    have hth : effIsThought l = false := by simpa [hs] using h
    simp [classifyInterruption, h, hb, hs, ht, hth]
  · intro h hb h1 h2 h3
    simp [classifyInterruption, h, hb, beq_iff_eq, bne_iff_ne, h1, h2, h3]
  · intro h hb hd
    rcases hd with hfr | hfr | ⟨hfr, ht⟩
    · simp [classifyInterruption, h, hb, hfr]
    · have hth : effIsThought l = false := by simpa [hfr] using h
      simp [classifyInterruption, h, hb, hfr, hth]
    · have hth : effIsThought l = false := by simpa [hfr] using h
      simp [classifyInterruption, h, hb, hfr, ht, hth]
  · intro hsw r hr
    simp [processAttempt, hsw, hr]

/-- A concrete blocked data line. -/
def blockedLine : Line :=
  { isData := true, text := "", isThought := false, finishReason := "", isBlocked := true }

/-- Witness for C1: the BLOCK rule fires on a concrete blocked line and
the attempt breaks without forwarding it. -/
theorem c1_classification_priority_witness :
    classifyInterruption "" blockedLine = some "BLOCK"
    ∧ processAttempt initialSessionState [blockedLine] =
        ([], initialSessionState, .interrupted "BLOCK") := by
  have h := c1_classification_priority "" blockedLine initialSessionState []
  refine ⟨h.2.1 (by decide) rfl, ?_⟩
  exact h.2.2.2.2.2 rfl "BLOCK" (h.2.1 (by decide) rfl)

/-- Text contribution of one downstream write to `accumulatedText`:
forwarded non-thought chunks contribute their classified text, all
other writes contribute nothing. -/
def evText : OutputEvent → String
  | .forwarded l => if effIsThought l then "" else effText l
  | _ => ""

/-- Concatenation of the text payloads of the non-thought chunks among
a list of downstream writes. -/
def forwardedText : List OutputEvent → String
  | [] => ""
  | ev :: evs => evText ev ++ forwardedText evs

def isErrorFrameEv : OutputEvent → Bool
  | .errorFrame _ => true
  | _ => false

def isDoneEv : OutputEvent → Bool
  | .doneLine _ => true
  | _ => false

theorem forwardedText_append (a b : List OutputEvent) :
    forwardedText (a ++ b) = forwardedText a ++ forwardedText b := by
  induction a with
  | nil => simp [forwardedText, String.empty_append]
  | cons ev evs ih => simp [forwardedText, ih, String.append_assoc]

/-- The swallow-mode clearing step (retry.go lines 156-159). -/
def swallowCleared (st : SessionState) : SessionState :=
  if st.swallowModeActive then { st with swallowModeActive := false } else st

theorem processAttempt_cons (st : SessionState) (l : Line) (rest : List Line) :
    processAttempt st (l :: rest) =
      if st.swallowModeActive && effIsThought l then
        (if l.finishReason != "" then ([], st, .interrupted "FINISH_DURING_THOUGHT")
         else processAttempt st rest)
      else
        (match classifyInterruption (swallowCleared st).accumulatedText l with
         | some reason => ([], swallowCleared st, .interrupted reason)
         | none =>
           if l.finishReason == "STOP" || l.finishReason == "MAX_TOKENS" then
             ([.forwarded l, .doneLine doneLineString],
              afterForward (swallowCleared st) l, .cleanExit)
           else
             (.forwarded l ::
                (processAttempt (afterForward (swallowCleared st) l) rest).1,
              (processAttempt (afterForward (swallowCleared st) l) rest).2)) := rfl

theorem swallowCleared_count (st : SessionState) :
    (swallowCleared st).consecutiveRetryCount = st.consecutiveRetryCount := by
  unfold swallowCleared
  by_cases h : st.swallowModeActive <;> simp [h]

theorem swallowCleared_acc (st : SessionState) :
    (swallowCleared st).accumulatedText = st.accumulatedText := by
  unfold swallowCleared
  by_cases h : st.swallowModeActive <;> simp [h]

theorem afterForward_count (st : SessionState) (l : Line) :
    (afterForward st l).consecutiveRetryCount = st.consecutiveRetryCount := by
  unfold afterForward
  by_cases h : ((effText l != "") && !effIsThought l) = true <;> simp [h]

theorem afterForward_acc (st : SessionState) (l : Line) :
    (afterForward st l).accumulatedText =
      st.accumulatedText ++ evText (.forwarded l) := by
  unfold afterForward evText
  by_cases ht : effIsThought l
  · simp [ht, String.append_empty]
  · by_cases he : effText l = ""
    · simp [ht, he, String.append_empty]
    · simp [ht, he]

theorem postInterruptState_count (cfg : Config) (st : SessionState) :
    (postInterruptState cfg st).consecutiveRetryCount = st.consecutiveRetryCount := by
  unfold postInterruptState
  by_cases h : (cfg.swallowThoughtsAfterRetry && st.isOutputtingFormalText) = true <;> simp [h]

theorem postInterruptState_acc (cfg : Config) (st : SessionState) :
    (postInterruptState cfg st).accumulatedText = st.accumulatedText := by
  unfold postInterruptState
  by_cases h : (cfg.swallowThoughtsAfterRetry && st.isOutputtingFormalText) = true <;> simp [h]

theorem processAttempt_facts (lines : List Line) : ∀ st : SessionState,
    (processAttempt st lines).2.1.consecutiveRetryCount = st.consecutiveRetryCount
    ∧ (processAttempt st lines).1.countP isErrorFrameEv = 0
    ∧ ((processAttempt st lines).2.2 = .cleanExit →
        (processAttempt st lines).1.countP isDoneEv = 1 ∧
        (processAttempt st lines).1.getLast? = some (.doneLine doneLineString))
    ∧ (∀ r, (processAttempt st lines).2.2 = .interrupted r →
        (processAttempt st lines).1.countP isDoneEv = 0)
    ∧ (processAttempt st lines).2.1.accumulatedText =
        st.accumulatedText ++ forwardedText (processAttempt st lines).1 := by
  induction lines with
  | nil =>
    intro st
    refine ⟨rfl, rfl, ?_, ?_, ?_⟩
    · intro h
      cases h
    · intro r h
      rfl
    · simp [processAttempt, forwardedText, String.append_empty]
  | cons l rest ih =>
    intro st
    rw [processAttempt_cons]
    by_cases h1 : (st.swallowModeActive && effIsThought l) = true
    · rw [if_pos h1]
      by_cases h2 : (l.finishReason != "") = true
      · rw [if_pos h2]
        refine ⟨rfl, rfl, ?_, ?_, ?_⟩
        · intro h
          cases h
        · intro r h
          rfl
        · simp [forwardedText, String.append_empty]
      · rw [if_neg h2]
        exact ih st
    · rw [if_neg h1]
      cases hc : classifyInterruption (swallowCleared st).accumulatedText l with
      | some reason =>
        simp only [hc]
        refine ⟨swallowCleared_count st, rfl, ?_, ?_, ?_⟩
        · intro h
          cases h
        · intro r h
          rfl
        · simp [swallowCleared_acc, forwardedText, String.append_empty]
      | none =>
        simp only [hc]
        by_cases h3 : (l.finishReason == "STOP" || l.finishReason == "MAX_TOKENS") = true
        · rw [if_pos h3]
          refine ⟨?_, rfl, ?_, ?_, ?_⟩
          · simp [afterForward_count, swallowCleared_count]
          · intro h
            refine ⟨rfl, rfl⟩
          · intro r h
            cases h
          · rw [afterForward_acc, swallowCleared_acc]
            simp [forwardedText, evText, String.append_empty]
        · rw [if_neg h3]
          obtain ⟨ihc, ihf, ihce, ihint, ihacc⟩ := ih (afterForward (swallowCleared st) l)
          refine ⟨?_, ?_, ?_, ?_, ?_⟩
          · simpa [afterForward_count, swallowCleared_count] using ihc
          · simpa [List.countP_cons, isErrorFrameEv] using ihf
          · intro h
            simp only at h
            obtain ⟨hcnt, hlast⟩ := ihce h
            refine ⟨by simpa [List.countP_cons, isDoneEv] using hcnt, ?_⟩
            have hne : (processAttempt (afterForward (swallowCleared st) l) rest).1 ≠ [] := by
              intro hnil
              rw [hnil] at hlast
              cases hlast
            simp [List.getLast?_cons, hlast, hne]
          · intro r h
            simp only at h
            simpa [List.countP_cons, isDoneEv] using ihint r h
          · simp only
            rw [forwardedText, ihacc, afterForward_acc, swallowCleared_acc,
              String.append_assoc]

theorem sessionIter_eq (cfg : Config) (st : SessionState) (lines : List Line) :
    sessionIter cfg st lines =
      match (processAttempt st lines).2.2 with
      | .cleanExit =>
        .finished (processAttempt st lines).1 (processAttempt st lines).2.1 .success
      | .interrupted reason =>
        if cfg.maxConsecutiveRetries ≤
            (postInterruptState cfg (processAttempt st lines).2.1).consecutiveRetryCount then
          .finished ((processAttempt st lines).1 ++
              [mkRetryLimitFrame cfg.maxConsecutiveRetries reason
                (postInterruptState cfg (processAttempt st lines).2.1).accumulatedText])
            (postInterruptState cfg (processAttempt st lines).2.1) .failure
        else
          .needRetry (processAttempt st lines).1
            { postInterruptState cfg (processAttempt st lines).2.1 with
              consecutiveRetryCount :=
                (postInterruptState cfg (processAttempt st lines).2.1).consecutiveRetryCount + 1 } := rfl

theorem sessionIter_needRetry_inv (cfg : Config) (st : SessionState) (lines : List Line)
    (evs : List OutputEvent) (st3 : SessionState)
    (h : sessionIter cfg st lines = .needRetry evs st3) :
    ∃ reason, (processAttempt st lines).2.2 = .interrupted reason ∧
      evs = (processAttempt st lines).1 ∧
      ¬ cfg.maxConsecutiveRetries ≤
          (postInterruptState cfg (processAttempt st lines).2.1).consecutiveRetryCount ∧
      st3 = { postInterruptState cfg (processAttempt st lines).2.1 with
              consecutiveRetryCount :=
                (postInterruptState cfg (processAttempt st lines).2.1).consecutiveRetryCount + 1 } := by
  rw [sessionIter_eq] at h
  cases hout : (processAttempt st lines).2.2 with
  | cleanExit =>
    simp only [hout] at h
    cases h
  | interrupted reason =>
    simp only [hout] at h
    by_cases hm : cfg.maxConsecutiveRetries ≤
        (postInterruptState cfg (processAttempt st lines).2.1).consecutiveRetryCount
    · rw [if_pos hm] at h
      cases h
    · rw [if_neg hm] at h
      cases h
      exact ⟨reason, rfl, rfl, hm, rfl⟩

theorem sessionIter_finished_inv (cfg : Config) (st : SessionState) (lines : List Line)
    (evs : List OutputEvent) (st' : SessionState) (r : SessionResult)
    (h : sessionIter cfg st lines = .finished evs st' r) :
    (r = .success ∧ evs = (processAttempt st lines).1 ∧ st' = (processAttempt st lines).2.1 ∧
       (processAttempt st lines).2.2 = .cleanExit)
    ∨ (r = .failure ∧ ∃ reason, (processAttempt st lines).2.2 = .interrupted reason ∧
       st' = postInterruptState cfg (processAttempt st lines).2.1 ∧
       cfg.maxConsecutiveRetries ≤ st'.consecutiveRetryCount ∧
       evs = (processAttempt st lines).1 ++
         [mkRetryLimitFrame cfg.maxConsecutiveRetries reason st'.accumulatedText]) := by
  rw [sessionIter_eq] at h
  cases hout : (processAttempt st lines).2.2 with
  | cleanExit =>
    simp only [hout] at h
    cases h
    exact Or.inl ⟨rfl, rfl, rfl, rfl⟩
  | interrupted reason =>
    simp only [hout] at h
    by_cases hm : cfg.maxConsecutiveRetries ≤
        (postInterruptState cfg (processAttempt st lines).2.1).consecutiveRetryCount
    · rw [if_pos hm] at h
      cases h
      exact Or.inr ⟨rfl, reason, rfl, rfl, hm, rfl⟩
    · rw [if_neg hm] at h
      cases h

theorem sessionRun_nil (cfg : Config) (st : SessionState) (lines : List Line) :
    sessionRun cfg st lines [] =
      match sessionIter cfg st lines with
      | .finished evs st' r => (evs, 0, st', r)
      | .needRetry evs st3 => (evs, 0, st3, .pending) := rfl

theorem sessionRun_cons (cfg : Config) (st : SessionState) (lines : List Line)
    (e : RetryEnv) (rest : List RetryEnv) :
    sessionRun cfg st lines (e :: rest) =
      match sessionIter cfg st lines with
      | .finished evs st' r => (evs, 0, st', r)
      | .needRetry evs st3 =>
        match fetchNewReader e.fetch with
        | some newLines =>
          (evs ++ (sessionRun cfg st3 newLines rest).1,
           (sessionRun cfg st3 newLines rest).2.1,
           (sessionRun cfg st3 newLines rest).2.2)
        | none =>
          (evs ++ (sessionRun cfg st3 e.residual rest).1,
           (sessionRun cfg st3 e.residual rest).2.1 + cfg.retryDelayMs,
           (sessionRun cfg st3 e.residual rest).2.2) := rfl

theorem isErrorFrameEv_mkRetryLimitFrame (m : Nat) (r : String) (a : String) :
    isErrorFrameEv (mkRetryLimitFrame m r a) = true := rfl

theorem sessionRun_facts (cfg : Config) : ∀ (env : List RetryEnv) (st : SessionState) (lines : List Line),
    ((sessionRun cfg st lines env).2.2.2 ≠ .failure →
        (sessionRun cfg st lines env).1.countP isErrorFrameEv = 0)
    ∧ ((sessionRun cfg st lines env).2.2.2 = .failure →
        (sessionRun cfg st lines env).1.countP isErrorFrameEv = 1)
    ∧ ((sessionRun cfg st lines env).2.2.2 = .success →
        (sessionRun cfg st lines env).1.countP isDoneEv = 1 ∧
        (sessionRun cfg st lines env).1.getLast? = some (.doneLine doneLineString))
    ∧ (st.consecutiveRetryCount ≤ cfg.maxConsecutiveRetries →
        (sessionRun cfg st lines env).2.2.1.consecutiveRetryCount ≤ cfg.maxConsecutiveRetries)
    ∧ (sessionRun cfg st lines env).2.2.1.accumulatedText =
        st.accumulatedText ++ forwardedText (sessionRun cfg st lines env).1 := by
  intro env
  induction env with
  | nil =>
    intro st lines
    obtain ⟨hcount, hframe, hclean, hint, hacc⟩ := processAttempt_facts lines st
    rw [sessionRun_nil]
    cases hit : sessionIter cfg st lines with
    | finished evs' st' r =>
      simp only [hit]
      rcases sessionIter_finished_inv cfg st lines evs' st' r hit with
        ⟨hr, hevs, hst, hout⟩ | ⟨hr, reason, hout, hst, hm, hevs⟩
      · subst hr hevs hst
        refine ⟨fun _ => hframe, ?_, ?_, ?_, hacc⟩
        · intro hx
          cases hx
        · intro _
          exact hclean hout
        · intro hle
          simpa [hcount] using hle
      · subst hr hevs hst
        refine ⟨?_, ?_, ?_, ?_, ?_⟩
        · intro hx
          exact absurd rfl hx
        · intro _
          simp [List.countP_append, hframe, List.countP_cons, isErrorFrameEv_mkRetryLimitFrame]
        · intro hx
          cases hx
        · intro hle
          simpa [postInterruptState_count, hcount] using hle
        · simp [forwardedText_append, postInterruptState_acc, hacc, forwardedText, evText,
            mkRetryLimitFrame, String.append_empty, String.append_assoc]
    | needRetry evs' st3 =>
      simp only [hit]
      obtain ⟨reason, hout, hevs, hm, hst3⟩ := sessionIter_needRetry_inv cfg st lines evs' st3 hit
      subst hevs
      refine ⟨fun _ => hframe, ?_, ?_, ?_, ?_⟩
      · intro hx
        cases hx
      · intro hx
        cases hx
      · intro hle
        have hc3 : st3.consecutiveRetryCount =
            (postInterruptState cfg (processAttempt st lines).2.1).consecutiveRetryCount + 1 := by
          rw [hst3]
        rw [postInterruptState_count, hcount] at hm hc3
        omega
      · have : st3.accumulatedText =
            (postInterruptState cfg (processAttempt st lines).2.1).accumulatedText := by
          rw [hst3]
        rw [this, postInterruptState_acc, hacc]
  | cons e rest ih =>
    intro st lines
    obtain ⟨hcount, hframe, hclean, hint, hacc⟩ := processAttempt_facts lines st
    rw [sessionRun_cons]
    cases hit : sessionIter cfg st lines with
    | finished evs' st' r =>
      simp only [hit]
      rcases sessionIter_finished_inv cfg st lines evs' st' r hit with
        ⟨hr, hevs, hst, hout⟩ | ⟨hr, reason, hout, hst, hm, hevs⟩
      · subst hr hevs hst
        refine ⟨fun _ => hframe, ?_, ?_, ?_, hacc⟩
        · intro hx
          cases hx
        · intro _
          exact hclean hout
        · intro hle
          simpa [hcount] using hle
      · subst hr hevs hst
        refine ⟨?_, ?_, ?_, ?_, ?_⟩
        · intro hx
          exact absurd rfl hx
        · intro _
          simp [List.countP_append, hframe, List.countP_cons, isErrorFrameEv_mkRetryLimitFrame]
        · intro hx
          cases hx
        · intro hle
          simpa [postInterruptState_count, hcount] using hle
        · simp [forwardedText_append, postInterruptState_acc, hacc, forwardedText, evText,
            mkRetryLimitFrame, String.append_empty, String.append_assoc]
    | needRetry evs' st3 =>
      simp only [hit]
      obtain ⟨reason, hout, hevs, hm, hst3⟩ := sessionIter_needRetry_inv cfg st lines evs' st3 hit
      subst hevs
      have hst3count : st3.consecutiveRetryCount =
          (postInterruptState cfg (processAttempt st lines).2.1).consecutiveRetryCount + 1 := by
        rw [hst3]
      have hst3acc : st3.accumulatedText =
          (postInterruptState cfg (processAttempt st lines).2.1).accumulatedText := by
        rw [hst3]
      have hst3le : st3.consecutiveRetryCount ≤ cfg.maxConsecutiveRetries := by
        rw [hst3count]
        omega
      have hdone0 : (processAttempt st lines).1.countP isDoneEv = 0 := hint reason hout
      cases hf : fetchNewReader e.fetch with
      | some newLines =>
        simp only [hf]
        obtain ⟨ih1, ih2, ih3, ih4, ih5⟩ := ih st3 newLines
        refine ⟨?_, ?_, ?_, ?_, ?_⟩
        · intro hx
          simp [List.countP_append, hframe, ih1 hx]
        · intro hx
          simp [List.countP_append, hframe, ih2 hx]
        · intro hx
          obtain ⟨hcnt, hlast⟩ := ih3 hx
          refine ⟨by simp [List.countP_append, hdone0, hcnt], ?_⟩
          simp [List.getLast?_append, hlast]
        · intro _
          exact ih4 hst3le
        · rw [forwardedText_append, ih5, hst3acc, postInterruptState_acc, hacc,
            String.append_assoc]
      | none =>
        simp only [hf]
        obtain ⟨ih1, ih2, ih3, ih4, ih5⟩ := ih st3 e.residual
        refine ⟨?_, ?_, ?_, ?_, ?_⟩
        · intro hx
          simp [List.countP_append, hframe, ih1 hx]
        · intro hx
          simp [List.countP_append, hframe, ih2 hx]
        · intro hx
          obtain ⟨hcnt, hlast⟩ := ih3 hx
          refine ⟨by simp [List.countP_append, hdone0, hcnt], ?_⟩
          simp [List.getLast?_append, hlast]
        · intro _
          exact ih4 hst3le
        · rw [forwardedText_append, ih5, hst3acc, postInterruptState_acc, hacc,
            String.append_assoc]

/-! ## Claim theorems for the session loop -/

/-- C2: when an attempt ends interrupted and the retry counter has
reached `MaxConsecutiveRetries`, the session writes exactly one SSE
error frame — code 504, status DEADLINE_EXCEEDED, message
`Retry limit (N) exceeded after stream interruption. Last reason: R.`,
and `accumulated_text_chars` equal to the byte length of
`accumulatedText` — and returns failure; moreover
`consecutiveRetryCount ≤ MaxConsecutiveRetries` is an invariant of the
session loop, so the counter never exceeds the limit before a retry
attempt. -/
theorem c2_retry_exhaustion :
    (∀ (cfg : Config) (st : SessionState) (lines : List Line) (env : List RetryEnv)
       (evs : List OutputEvent) (st1 : SessionState) (reason : String),
       processAttempt st lines = (evs, st1, .interrupted reason) →
       st1.consecutiveRetryCount = cfg.maxConsecutiveRetries →
       sessionRun cfg st lines env =
         (evs ++ [.errorFrame (.obj [("error", .obj [
             ("code", .num 504),
             ("status", .str "DEADLINE_EXCEEDED"),
             ("message", .str ("Retry limit (" ++ toString cfg.maxConsecutiveRetries ++
               ") exceeded after stream interruption. Last reason: " ++ reason ++ ".")),
             ("details", .arr [.obj [
               ("@type", .str "proxy.debug"),
               ("accumulated_text_chars", .num st1.accumulatedText.utf8ByteSize)]])])])],
          0, postInterruptState cfg st1, .failure)
       ∧ (sessionRun cfg st lines env).1.countP isErrorFrameEv = 1)
    ∧ (∀ (cfg : Config) (st : SessionState) (lines : List Line) (env : List RetryEnv),
       st.consecutiveRetryCount ≤ cfg.maxConsecutiveRetries →
       (sessionRun cfg st lines env).2.2.1.consecutiveRetryCount ≤ cfg.maxConsecutiveRetries) := by
  constructor
  · intro cfg st lines env evs st1 reason hatt hmax
    have hiter : sessionIter cfg st lines =
        .finished (evs ++ [mkRetryLimitFrame cfg.maxConsecutiveRetries reason
            (postInterruptState cfg st1).accumulatedText])
          (postInterruptState cfg st1) .failure := by
      rw [sessionIter_eq, hatt]
      simp [postInterruptState_count, hmax]
    have hrun : sessionRun cfg st lines env =
        (evs ++ [mkRetryLimitFrame cfg.maxConsecutiveRetries reason
            (postInterruptState cfg st1).accumulatedText],
         0, postInterruptState cfg st1, .failure) := by
      cases env with
      | nil => rw [sessionRun_nil, hiter]
      | cons e rest => rw [sessionRun_cons, hiter]
    constructor
    · rw [hrun]
      simp [mkRetryLimitFrame, postInterruptState_acc]
    · rw [hrun]
      have hframe : evs.countP isErrorFrameEv = 0 := by
        have := (processAttempt_facts lines st).2.1
        rwa [hatt] at this
      simp [List.countP_append, hframe, List.countP_cons, isErrorFrameEv_mkRetryLimitFrame]
  · intro cfg st lines env hle
    exact (sessionRun_facts cfg env st lines).2.2.2.1 hle

/-- Configuration with a retry limit of zero. -/
def cfgNoRetry : Config :=
  { maxConsecutiveRetries := 0, retryDelayMs := 750, swallowThoughtsAfterRetry := true }

/-- Witness for C2: an immediately-dropped stream with retry limit 0
produces exactly the 504 DEADLINE_EXCEEDED frame and fails. -/
theorem c2_retry_exhaustion_witness :
    sessionRun cfgNoRetry initialSessionState [] [] =
      ([.errorFrame (.obj [("error", .obj [
          ("code", .num 504),
          ("status", .str "DEADLINE_EXCEEDED"),
          ("message", .str "Retry limit (0) exceeded after stream interruption. Last reason: DROP."),
          ("details", .arr [.obj [
            ("@type", .str "proxy.debug"),
            ("accumulated_text_chars", .num 0)]])])])],
       0, initialSessionState, .failure)
    ∧ (sessionRun cfgNoRetry initialSessionState [] []).1.countP isErrorFrameEv = 1 := by
  have h := c2_retry_exhaustion.1 cfgNoRetry initialSessionState [] [] []
    initialSessionState "DROP" rfl rfl
  exact ⟨h.1, h.2⟩

/-- Default-style configuration (README defaults: limit 100, delay
750 ms, swallowing on). -/
def cfgDefault : Config :=
  { maxConsecutiveRetries := 100, retryDelayMs := 750, swallowThoughtsAfterRetry := true }

/-- A plain formal-text data line. -/
def helloLine : Line :=
  { isData := true, text := "Hello ", isThought := false, finishReason := "", isBlocked := false }

/-- A formal-text data line carrying finish reason STOP. -/
def stopWorldLine : Line :=
  { isData := true, text := "world", isThought := false, finishReason := "STOP", isBlocked := false }

/-- C6 counterexample: on a concrete happy-path session the engine does
synthesize a final `[done]` data line, but its bytes are retry.go line
209's rendering with a space after each colon, not the space-free
rendering the claim quotes. -/
theorem c6_done_line_counterexample :
    (sessionRun cfgDefault initialSessionState [helloLine, stopWorldLine] []).1.getLast? =
      some (.doneLine doneLineString)
    ∧ doneLineString ≠
        "data: \x7b\"candidates\":[\x7b\"content\":\x7b\"parts\":[\x7b\"text\":\"[done]\"\x7d]\x7d\x7d]\x7d" := by
  constructor
  · rfl
  · decide

/-- C6 (amended to the bytes the code writes): whenever a line with
finish reason STOP or MAX_TOKENS is handled without an interruption,
the engine forwards it, then writes the synthesized `[done]` data line
(`doneLineString`, with a space after each colon) and returns success;
and every successful session's downstream writes contain exactly one
synthesized `[done]` line, as the final write. -/
theorem c6_done_line_on_clean_finish :
    (∀ (st : SessionState) (l : Line) (rest : List Line),
       st.swallowModeActive = false →
       classifyInterruption st.accumulatedText l = none →
       (l.finishReason == "STOP" || l.finishReason == "MAX_TOKENS") = true →
       processAttempt st (l :: rest) =
         ([.forwarded l, .doneLine doneLineString], afterForward st l, .cleanExit))
    ∧ (∀ (cfg : Config) (st : SessionState) (lines : List Line) (env : List RetryEnv),
       (sessionRun cfg st lines env).2.2.2 = .success →
       (sessionRun cfg st lines env).1.countP isDoneEv = 1 ∧
       (sessionRun cfg st lines env).1.getLast? = some (.doneLine doneLineString)) := by
  constructor
  · intro st l rest hsw hc hend
    rw [processAttempt_cons]
    simp [swallowCleared, hsw, hc, hend]
  · intro cfg st lines env hsucc
    exact (sessionRun_facts cfg env st lines).2.2.1 hsucc

/-- Witness for C6 (amended) at a concrete clean finish and a concrete
successful session. -/
theorem c6_done_line_on_clean_finish_witness :
    processAttempt initialSessionState [stopWorldLine] =
      ([.forwarded stopWorldLine, .doneLine doneLineString],
       afterForward initialSessionState stopWorldLine, .cleanExit)
    ∧ (sessionRun cfgDefault initialSessionState [helloLine, stopWorldLine] []).1.countP
        isDoneEv = 1 := by
  constructor
  · exact c6_done_line_on_clean_finish.1 initialSessionState stopWorldLine [] rfl
      (by decide) (by decide)
  · exact (c6_done_line_on_clean_finish.2 cfgDefault initialSessionState
      [helloLine, stopWorldLine] [] (by decide)).1

/-- A plain formal-text data line forwarded after a retry. -/
def worldLine : Line :=
  { isData := true, text := "World", isThought := false, finishReason := "", isBlocked := false }

/-- A thought-flagged data line with no finish reason. -/
def hmmThoughtLine : Line :=
  { isData := true, text := "hmm", isThought := true, finishReason := "", isBlocked := false }

/-- C7 counterexample: with swallowing enabled, a session whose first
attempt outputs formal text and drops, and whose retry stream resumes
with formal text and then emits a thought chunk, forwards that thought
chunk downstream after a non-thought chunk that was preceded by a
retry — the claimed global invariant fails (swallow mode ends at the
first non-thought line, after which thoughts pass through again). -/
theorem c7_thought_after_retry_counterexample :
    (sessionRun cfgDefault initialSessionState [helloLine]
        [{ fetch := .httpStatus 200 [worldLine, hmmThoughtLine], residual := [] }]).1 =
      [.forwarded helloLine, .forwarded worldLine, .forwarded hmmThoughtLine]
    ∧ effIsThought worldLine = false
    ∧ effIsThought hmmThoughtLine = true
    ∧ cfgDefault.swallowThoughtsAfterRetry = true
    ∧ (sessionRun cfgDefault initialSessionState [helloLine]
        [{ fetch := .httpStatus 200 [worldLine, hmmThoughtLine], residual := [] }]).2.2.1.consecutiveRetryCount = 2 := by
  refine ⟨rfl, rfl, rfl, rfl, rfl⟩

/-- C7 (amended): once `swallowModeActive` is set, every subsequent
thought chunk is dropped — except that a swallowed thought line with a
non-empty finish reason interrupts the attempt as
FINISH_DURING_THOUGHT — until the first non-thought line (even one
carrying no text) clears the flag; in particular an attempt consisting
solely of thought chunks writes nothing downstream.  After the flag is
cleared, thought chunks pass through again, so the claim's global
"no thought after any post-retry non-thought chunk" invariant does not
hold. -/
theorem c7_swallow_mode_behavior :
    (∀ (st : SessionState) (l : Line) (rest : List Line),
       st.swallowModeActive = true → effIsThought l = true →
       l.finishReason ≠ "" →
       processAttempt st (l :: rest) = ([], st, .interrupted "FINISH_DURING_THOUGHT"))
    ∧ (∀ (st : SessionState) (l : Line) (rest : List Line),
       st.swallowModeActive = true → effIsThought l = true →
       l.finishReason = "" →
       processAttempt st (l :: rest) = processAttempt st rest)
    ∧ (∀ (st : SessionState) (l : Line) (rest : List Line),
       st.swallowModeActive = true → effIsThought l = false →
       processAttempt st (l :: rest) =
         processAttempt { st with swallowModeActive := false } (l :: rest))
    ∧ (∀ (st : SessionState) (lines : List Line),
       st.swallowModeActive = true →
       (∀ l ∈ lines, effIsThought l = true) →
       (processAttempt st lines).1 = []) := by
  refine ⟨?_, ?_, ?_, ?_⟩
  · intro st l rest hsw hth hfr
    rw [processAttempt_cons]
    simp [hsw, hth, bne_iff_ne, hfr]
  · intro st l rest hsw hth hfr
    rw [processAttempt_cons]
    simp [hsw, hth, hfr]
  · intro st l rest hsw hth
    rw [processAttempt_cons, processAttempt_cons]
    simp [hsw, hth, swallowCleared]
  · intro st lines hsw hall
    induction lines with
    | nil => rfl
    | cons l rest ih =>
      have hth : effIsThought l = true := hall l (by simp)
      rw [processAttempt_cons]
      by_cases hfr : l.finishReason = ""
      · simp only [hsw, hth, Bool.and_self, if_true]
        rw [if_neg (by simp [bne_iff_ne, hfr])]
        exact ih (fun x hx => hall x (by simp [hx]))
      · simp only [hsw, hth, Bool.and_self, if_true]
        rw [if_pos (by simp [bne_iff_ne, hfr])]

/-- A session state in the middle of swallow mode. -/
def swallowingState : SessionState :=
  { accumulatedText := "Hello ", consecutiveRetryCount := 1,
    isOutputtingFormalText := true, swallowModeActive := true }

/-- Witness for C7 (amended): a concrete swallowed thought chunk is
dropped, and an all-thought attempt writes nothing. -/
theorem c7_swallow_mode_behavior_witness :
    processAttempt swallowingState [hmmThoughtLine] = processAttempt swallowingState []
    ∧ (processAttempt swallowingState [hmmThoughtLine, hmmThoughtLine]).1 = [] := by
  constructor
  · exact c7_swallow_mode_behavior.2.1 swallowingState hmmThoughtLine [] rfl rfl rfl
  · exact c7_swallow_mode_behavior.2.2.2 swallowingState [hmmThoughtLine, hmmThoughtLine]
      rfl (by decide)

/-- C8: `accumulatedText` equals the initial accumulated text plus the
concatenation of the text payloads of the non-thought chunks forwarded
downstream (thought chunks, the synthesized `[done]` line and error
frames contribute nothing — see `evText`); this holds after any
attempt and after any session prefix, hence at every point during a
session.  Starting from a fresh session it is exactly the
concatenation of the non-thought forwarded text. -/
theorem c8_accumulated_text_invariant :
    (∀ (st : SessionState) (lines : List Line),
       (processAttempt st lines).2.1.accumulatedText =
         st.accumulatedText ++ forwardedText (processAttempt st lines).1)
    ∧ (∀ (cfg : Config) (st : SessionState) (lines : List Line) (env : List RetryEnv),
       (sessionRun cfg st lines env).2.2.1.accumulatedText =
         st.accumulatedText ++ forwardedText (sessionRun cfg st lines env).1)
    ∧ (∀ (cfg : Config) (lines : List Line) (env : List RetryEnv),
       (sessionRun cfg initialSessionState lines env).2.2.1.accumulatedText =
         forwardedText (sessionRun cfg initialSessionState lines env).1) := by
  refine ⟨fun st lines => (processAttempt_facts lines st).2.2.2.2,
          fun cfg st lines env => (sessionRun_facts cfg env st lines).2.2.2.2,
          fun cfg lines env => ?_⟩
  have h := (sessionRun_facts cfg env initialSessionState lines).2.2.2.2
  rwa [show initialSessionState.accumulatedText = "" from rfl, String.empty_append] at h

/-- C9: a transport error or any non-200 status on a retry fetch never
terminates the session by itself: no status (including 400, 401, 403,
404 and 429 — `nonRetryableStatuses` is declared but never consulted)
replaces the reader, the engine sleeps `RetryDelayMs` and continues
with the next attempt, and the failed attempt has already consumed one
unit of the retry budget (`consecutiveRetryCount` was incremented
before the fetch). -/
theorem c9_non_200_keeps_retrying :
    (∀ body, fetchNewReader (.httpStatus 400 body) = none ∧
       fetchNewReader (.httpStatus 401 body) = none ∧
       fetchNewReader (.httpStatus 403 body) = none ∧
       fetchNewReader (.httpStatus 404 body) = none ∧
       fetchNewReader (.httpStatus 429 body) = none)
    ∧ (∀ code body, code ≠ 200 → fetchNewReader (.httpStatus code body) = none)
    ∧ fetchNewReader .transportErr = none
    ∧ (∀ (cfg : Config) (st : SessionState) (lines : List Line) (e : RetryEnv)
         (rest : List RetryEnv) (evs : List OutputEvent) (st3 : SessionState),
       sessionIter cfg st lines = .needRetry evs st3 →
       fetchNewReader e.fetch = none →
       sessionRun cfg st lines (e :: rest) =
         (evs ++ (sessionRun cfg st3 e.residual rest).1,
          (sessionRun cfg st3 e.residual rest).2.1 + cfg.retryDelayMs,
          (sessionRun cfg st3 e.residual rest).2.2))
    ∧ (∀ (cfg : Config) (st : SessionState) (lines : List Line)
         (evs : List OutputEvent) (st3 : SessionState),
       sessionIter cfg st lines = .needRetry evs st3 →
       st3.consecutiveRetryCount = st.consecutiveRetryCount + 1) := by
  refine ⟨?_, ?_, rfl, ?_, ?_⟩
  · intro body
    exact ⟨rfl, rfl, rfl, rfl, rfl⟩
  · intro code body hne
    simp [fetchNewReader, hne]
  · intro cfg st lines e rest evs st3 hiter hf
    rw [sessionRun_cons]
    simp only [hiter, hf]
  · intro cfg st lines evs st3 hiter
    obtain ⟨reason, hout, hevs, hm, hst3⟩ := sessionIter_needRetry_inv cfg st lines evs st3 hiter
    have : st3.consecutiveRetryCount =
        (postInterruptState cfg (processAttempt st lines).2.1).consecutiveRetryCount + 1 := by
      rw [hst3]
    rw [this, postInterruptState_count, (processAttempt_facts lines st).1]

/-- The session state after one consumed retry of a fresh session. -/
def retriedState : SessionState :=
  { accumulatedText := "", consecutiveRetryCount := 1,
    isOutputtingFormalText := false, swallowModeActive := false }

/-- Witness for C9: a 429 on the retry fetch does not replace the
reader, and the loop continues (the sleep is recorded) with the
counter already at 1. -/
theorem c9_non_200_keeps_retrying_witness :
    fetchNewReader (.httpStatus 429 []) = none
    ∧ sessionRun cfgDefault initialSessionState []
        [{ fetch := .httpStatus 429 [], residual := [] }] =
      (([] : List OutputEvent) ++ (sessionRun cfgDefault retriedState [] []).1,
       (sessionRun cfgDefault retriedState [] []).2.1 + cfgDefault.retryDelayMs,
       (sessionRun cfgDefault retriedState [] []).2.2)
    ∧ retriedState.consecutiveRetryCount = initialSessionState.consecutiveRetryCount + 1 := by
  refine ⟨(c9_non_200_keeps_retrying.1 []).2.2.2.2, ?_, ?_⟩
  · exact c9_non_200_keeps_retrying.2.2.2.1 cfgDefault initialSessionState []
      { fetch := .httpStatus 429 [], residual := [] } [] [] retriedState rfl rfl
  · exact c9_non_200_keeps_retrying.2.2.2.2 cfgDefault initialSessionState [] [] retriedState
      rfl
